import Mathlib

/-!
# Recursion effect filter: delay buffer and render feedback step

A shallow embedding of `src/recursion-effect.c` (the OBS "Recursion Effect"
video filter) together with theorems about its delay buffer.

Conventions of the embedding.

* A `gs_texrender_t *` is an `Option Nat`: `none` is the NULL pointer and
  `some h` is the render target with identity `h`.
* `struct deque frames` is a `List frame`, front (oldest) first.  Sizes are
  counted in elements, so `num_frames` is the list length.
* The graphics subsystem is a record `graphics` carried in the filter state
  (field `gs`): it hands out fresh render-target identities, logs every
  create, destroy and draw call made by the filter, and records which render
  targets have a texture (those on which an off-screen pass has begun).
* What the host reports when a callback runs (filter target and its base
  size, parent, frame rate, enabled flag) is a `host` record passed to the
  callback.
* The float parameters (offset, scale, rotation, alpha), the hotkey pair and
  the shader effect handle only feed draw calls and never influence the
  buffer; they are left out of the state.
* `uint64_t` arithmetic that can wrap is written with `% 2 ^ 64`.  `size_t`
  is taken to be 64 bits wide, so the cast on line 79 is the identity.
* A host that reports `fps_num = 0` makes `util_mul_div64` divide by zero in
  C; here the interval is then 0, the value for which `update_interval` frees
  the buffer.  Every theorem that builds a buffer assumes a non-zero interval.

The sections after the definitions put the loops, the render step and the
tick in closed form, prove two invariants of all callback sequences (the
buffer shape `settled` and the ownership of render targets `owned`), and end
with the claims `C1` to `C10`.
-/

namespace RecursionEffect

/-! ## Constants of `recursion-effect.h` -/

def RESET_TRIGGER_NONE : Int := 0
def RESET_TRIGGER_SHOW : Int := 1
def RESET_TRIGGER_HIDE : Int := 2
def RESET_TRIGGER_ACTIVATE : Int := 3
def RESET_TRIGGER_DEACTIVATE : Int := 4
def RESET_TRIGGER_ENABLE : Int := 5

/-! ## Data model -/

/-- The record `struct frame`: one slot of the delay buffer. -/
structure frame where
  render : Option Nat
  ts : Nat
deriving DecidableEq, Repr

/-- One drawing action of `recursion_effect_video_render`, as logged by the
graphics record: the pass-through `obs_source_skip_video_filter` (line 277);
the sprite `draw_frame` draws from the texture of the render target `tex`
(lines 259-266); or the composite step of lines 286-329 on the scratch target
`dst`, where `began` is the result of `gs_texrender_begin` (line 297) and
`src` is the render target of the popped slot whose texture is drawn inside
the pass (`none` when the pass did not begin or that slot has no texture,
line 307). -/
inductive pass where
  | skip : pass
  | draw (tex : Nat) : pass
  | compose (dst : Option Nat) (began : Bool) (src : Option Nat) (inversed : Bool) : pass
deriving DecidableEq, Repr

/-- Modelled from the spec: the GPU abstraction of section 6 (off-screen
render target `create`, `destroy`, `begin` and `get_texture`), which is host
code outside this repository.  `next` is the identity the next
`gs_texrender_create` returns, `live` holds the render targets that exist
(created and not yet destroyed), `created` and `destroyed` log the calls in
order, `passes` logs the drawing actions, and `begun` logs the render targets
on which a `gs_texrender_begin` succeeded: those are the ones that have a
texture. -/
structure graphics where
  next : Nat
  live : List Nat
  created : List Nat
  destroyed : List Nat
  passes : List pass
  begun : List Nat
deriving DecidableEq, Repr

/-- The record `struct recursion_effect_info`, restricted to the fields the
buffer logic reads or writes, plus the graphics record `gs`. -/
structure recursion_effect_info where
  frames : List frame
  render : Option Nat
  delay_ns : Nat
  interval_ns : Nat
  cx : Nat
  cy : Nat
  target_valid : Bool
  processed_frame : Bool
  inversed : Bool
  reset_trigger : Int
  gs : graphics
deriving DecidableEq, Repr

/-- What the host answers during one callback: `target` is `none` when
`obs_filter_get_target` returns NULL and otherwise the base width and height
of the target, `parent` tells whether `obs_filter_get_parent` is non-NULL,
`fps_num` and `fps_den` are the fields of `obs_video_info`, and `enabled` is
`obs_source_enabled`. -/
structure host where
  target : Option (Nat × Nat)
  parent : Bool
  fps_num : Nat
  fps_den : Nat
  enabled : Bool
deriving DecidableEq, Repr

/-- The settings keys read by `recursion_effect_update` that reach the buffer
logic. -/
structure settings where
  delay_ms : Int
  inversed : Bool
  reset_trigger : Int
deriving DecidableEq, Repr

/-! ## Host primitives -/

/-- Modelled from the spec: `gs_texrender_create` of the GPU abstraction
(section 6), host code outside this repository.  It never fails and returns
a render target that did not exist before. -/
def gs_texrender_create (g : graphics) : Nat × graphics :=
  (g.next, { g with next := g.next + 1, live := g.live ++ [g.next],
                    created := g.created ++ [g.next] })

/-- Modelled from the spec: `gs_texrender_destroy` of the GPU abstraction
(section 6), host code outside this repository.  Destroying NULL does
nothing. -/
def gs_texrender_destroy (g : graphics) : Option Nat → graphics
  | none => g
  | some h => { g with live := g.live.erase h, destroyed := g.destroyed ++ [h] }

/-- Modelled from the spec: `gs_texrender_begin` of the GPU abstraction
(section 6, `begin(width,height) -> bool`), host code outside this
repository.  The pass begins when the render target is non-NULL and both
sizes are non-zero; the render target then has a texture of that size. -/
def gs_texrender_begin (g : graphics) (t : Option Nat) (cx cy : Nat) : Bool × graphics :=
  match t with
  | none => (false, g)
  | some h =>
    if cx != 0 && cy != 0 then (true, { g with begun := g.begun ++ [h] }) else (false, g)

/-- Modelled from the spec: `gs_texrender_get_texture` of the GPU abstraction
(section 6), host code outside this repository.  The result is NULL (`none`)
for NULL and for a render target on which no pass has begun yet (section 7:
a slot that is "not ready yet"); otherwise it is the texture of the render
target, named by the render target. -/
def gs_texrender_get_texture (g : graphics) : Option Nat → Option Nat
  | none => none
  | some h => if g.begun.contains h then some h else none

/-- Modelled from the spec: `util_mul_div64`, host code outside this
repository; section 4.2 gives `fps_denominator * 1e9 / fps_numerator` in
integer arithmetic rounding toward zero.  A zero divisor (a trap in C)
yields 0 here. -/
def util_mul_div64 (num mul div : Nat) : Nat :=
  num * mul / div

/-- Modelled from the spec: `deque_upsize`, host code outside this
repository; it grows the sequence at the back to `n` elements, the added
ones zero-filled, and does nothing when the sequence is already that long. -/
def deque_upsize (frames : List frame) (n : Nat) : List frame :=
  frames ++ List.replicate (n - frames.length) { render := none, ts := 0 }

/-- Record a drawing action in the graphics log. -/
def log_pass (g : graphics) (p : pass) : graphics :=
  { g with passes := g.passes ++ [p] }

/-! ## The functions of `recursion-effect.c` -/

/-- The loop of `free_textures` (lines 47-51): pop every slot from the front
and destroy its render target. -/
def free_textures_loop : List frame → graphics → graphics
  | [], g => g
  | fr :: rest, g => free_textures_loop rest (gs_texrender_destroy g fr.render)

/-- The function `free_textures` (lines 42-58). -/
def free_textures (f : recursion_effect_info) : recursion_effect_info :=
  if f.frames.isEmpty && f.render.isNone then f
  else
    let g := free_textures_loop f.frames f.gs
    match f.render with
    | some h =>
      { f with frames := [], render := none, gs := gs_texrender_destroy g (some h) }
    | none => { f with frames := [], gs := g }

/-- The function `num_frames` (lines 60-63). -/
def num_frames (buf : List frame) : Nat :=
  buf.length

/-- The `for` loop of `update_interval` (lines 90-95), with `k` the number of
iterations left (`num - i`): slot `i` receives a new render target. -/
def update_interval_fill : Nat → Nat → List frame → graphics → List frame × graphics
  | 0, _, frames, g => (frames, g)
  | k + 1, i, frames, g =>
    let c := gs_texrender_create g
    update_interval_fill k (i + 1)
      (frames.modify (fun fr => { fr with render := some c.1 }) i) c.2

/-- The `while` loop of `update_interval` (lines 102-106): pop and destroy
from the front while more than `num` slots remain. -/
def update_interval_shrink (num : Nat) : List frame → graphics → List frame × graphics
  | [], g => ([], g)
  | fr :: rest, g =>
    if num_frames (fr :: rest) > num then
      update_interval_shrink num rest (gs_texrender_destroy g fr.render)
    else (fr :: rest, g)

/-- The function `update_interval` (lines 65-110). -/
def update_interval (f : recursion_effect_info) (new_interval_ns : Nat) :
    recursion_effect_info :=
  if !f.target_valid || new_interval_ns == 0 then free_textures f
  else
    let f1 : recursion_effect_info :=
      match f.render with
      | none =>
        let c := gs_texrender_create f.gs
        { f with render := some c.1, gs := c.2 }
      | some _ => f
    let f2 : recursion_effect_info := { f1 with interval_ns := new_interval_ns }
    let num0 := f2.delay_ns / new_interval_ns
    let num := if num0 == 0 then 1 else num0
    if num > num_frames f2.frames then
      let prev_num := num_frames f2.frames
      let r := update_interval_fill (num - prev_num) prev_num
        (deque_upsize f2.frames num) f2.gs
      { f2 with frames := r.1, gs := r.2 }
    else if num < num_frames f2.frames then
      let r := update_interval_shrink num f2.frames f2.gs
      { f2 with frames := r.1, gs := r.2 }
    else f2

/-- The function `check_interval` (lines 112-123). -/
def check_interval (f : recursion_effect_info) (h : host) : recursion_effect_info :=
  let interval_ns := util_mul_div64 h.fps_den 1000000000 h.fps_num
  if interval_ns != f.interval_ns then update_interval f interval_ns else f

/-- The function `reset_textures` (lines 125-130). -/
def reset_textures (f : recursion_effect_info) (h : host) : recursion_effect_info :=
  check_interval (free_textures { f with interval_ns := 0 }) h

/-- The function `recursion_effect_update` (lines 164-207); `delay_ns` is
computed in `uint64_t`. -/
def recursion_effect_update (f : recursion_effect_info) (s : settings) :
    recursion_effect_info :=
  let d := s.delay_ms
  let delay_ns := ((if d > 0 then d.toNat else 1) * 1000000) % 2 ^ 64
  let f1 : recursion_effect_info :=
    if delay_ns != f.delay_ns then
      let f0 : recursion_effect_info := { f with delay_ns := delay_ns }
      if f0.interval_ns != 0 then update_interval f0 f0.interval_ns else f0
    else f
  { f1 with inversed := s.inversed, reset_trigger := s.reset_trigger }

/-- The graphics record before the filter made any call. -/
def graphics_empty : graphics :=
  { next := 0, live := [], created := [], destroyed := [], passes := [], begun := [] }

/-- The function `recursion_effect_create` (lines 209-233): a zero-filled
record (`bzalloc`) followed by `recursion_effect_update`. -/
def recursion_effect_create (s : settings) : recursion_effect_info :=
  recursion_effect_update
    { frames := [], render := none, delay_ns := 0, interval_ns := 0, cx := 0, cy := 0,
      target_valid := false, processed_frame := false, inversed := false,
      reset_trigger := 0, gs := graphics_empty } s

/-- The function `recursion_effect_destroy` (lines 235-248): the state of
the record when `bfree` is reached. -/
def recursion_effect_destroy (f : recursion_effect_info) : recursion_effect_info :=
  free_textures f

/-- The function `draw_frame` (lines 250-267): the texture of the newest
slot is drawn, and nothing is drawn when that slot has no texture (lines
256-258). -/
def draw_frame (f : recursion_effect_info) : recursion_effect_info :=
  match f.frames.getLast? with
  | some fr =>
    match gs_texrender_get_texture f.gs fr.render with
    | none => f
    | some tex => { f with gs := log_pass f.gs (pass.draw tex) }
  | none => f

/-- The function `recursion_effect_video_render` (lines 269-340). -/
def recursion_effect_video_render (f : recursion_effect_info) (h : host) :
    recursion_effect_info :=
  if !f.target_valid || h.target.isNone || !h.parent || f.frames.isEmpty then
    { f with gs := log_pass f.gs pass.skip }
  else if f.processed_frame then draw_frame f
  else
    match f.frames with
    | [] => f
    | fr :: rest =>
      let b := gs_texrender_begin f.gs f.render f.cx f.cy
      let src := if b.1 then gs_texrender_get_texture b.2 fr.render else none
      let g := log_pass b.2 (pass.compose f.render b.1 src f.inversed)
      let tmp := f.render
      let f1 : recursion_effect_info :=
        { f with render := fr.render, frames := rest ++ [{ fr with render := tmp }], gs := g }
      { draw_frame f1 with processed_frame := true }

/-- The function `check_size` (lines 342-365); the second component is the
returned flag. -/
def check_size (f : recursion_effect_info) (h : host) : recursion_effect_info × Bool :=
  match h.target with
  | none => ({ f with target_valid := false }, true)
  | some (cx, cy) =>
    let f1 : recursion_effect_info := { f with target_valid := (cx != 0 && cy != 0) }
    if !f1.target_valid then (f1, true)
    else if cx != f1.cx || cy != f1.cy then
      (reset_textures { f1 with cx := cx, cy := cy } h, true)
    else (f1, false)

/-- The function `recursion_effect_tick` (lines 367-384). -/
def recursion_effect_tick (f : recursion_effect_info) (h : host) : recursion_effect_info :=
  let f0 : recursion_effect_info := { f with processed_frame := false }
  if f0.reset_trigger == RESET_TRIGGER_ENABLE && !h.enabled then
    free_textures { f0 with interval_ns := 0 }
  else
    let r := check_size f0 h
    if r.2 then r.1 else check_interval r.1 h

/-- The function `recursion_effect_show` (lines 444-449). -/
def recursion_effect_show (f : recursion_effect_info) (h : host) : recursion_effect_info :=
  if f.reset_trigger == RESET_TRIGGER_SHOW then reset_textures f h else f

/-- The function `recursion_effect_hide` (lines 451-456). -/
def recursion_effect_hide (f : recursion_effect_info) (h : host) : recursion_effect_info :=
  if f.reset_trigger == RESET_TRIGGER_HIDE then reset_textures f h else f

/-- The function `recursion_effect_activate` (lines 458-463). -/
def recursion_effect_activate (f : recursion_effect_info) (h : host) : recursion_effect_info :=
  if f.reset_trigger == RESET_TRIGGER_ACTIVATE then reset_textures f h else f

/-- The function `recursion_effect_deactivate` (lines 465-470). -/
def recursion_effect_deactivate (f : recursion_effect_info) (h : host) :
    recursion_effect_info :=
  if f.reset_trigger == RESET_TRIGGER_DEACTIVATE then reset_textures f h else f

/-! ## Callback sequences -/

/-- The callbacks of `recursion_effect_filter` (lines 472-490) that the host
invokes on a live filter, each with what the host reports at that moment. -/
inductive callback where
  | update (s : settings) : callback
  | tick (h : host) : callback
  | video_render (h : host) : callback
  | show (h : host) : callback
  | hide (h : host) : callback
  | activate (h : host) : callback
  | deactivate (h : host) : callback
deriving DecidableEq, Repr

/-- Dispatch of one callback. -/
def step (f : recursion_effect_info) : callback → recursion_effect_info
  | callback.update s => recursion_effect_update f s
  | callback.tick h => recursion_effect_tick f h
  | callback.video_render h => recursion_effect_video_render f h
  | callback.show h => recursion_effect_show f h
  | callback.hide h => recursion_effect_hide f h
  | callback.activate h => recursion_effect_activate f h
  | callback.deactivate h => recursion_effect_deactivate f h

/-- The callbacks of a list, invoked serially. -/
def run (f : recursion_effect_info) (cs : List callback) : recursion_effect_info :=
  cs.foldl step f

/-- States reachable from a freshly created filter. -/
inductive Reachable : recursion_effect_info → Prop where
  | create (s : settings) : Reachable (recursion_effect_create s)
  | step {f : recursion_effect_info} (c : callback) : Reachable f → Reachable (step f c)

/-! ## Vocabulary of the claims -/

/-- The slot count `max(1, floor(delay_ns / interval_ns))`. -/
def required_count (delay_ns interval_ns : Nat) : Nat :=
  max 1 (delay_ns / interval_ns)

/-- The render targets the filter holds: those of the slots, oldest first,
then the scratch target. -/
def held (f : recursion_effect_info) : List Nat :=
  f.frames.filterMap (fun fr => fr.render) ++ f.render.toList

/-- The number of composite passes in a log. -/
def composites (ps : List pass) : Nat :=
  ps.countP (fun p => match p with
    | pass.compose _ _ _ _ => true
    | _ => false)

/-- The drawing actions one call of `draw_frame` logs: one sprite when the
newest slot has a texture, none otherwise. -/
def draw_passes (f : recursion_effect_info) : List pass :=
  match f.frames.getLast? with
  | some fr =>
    match gs_texrender_get_texture f.gs fr.render with
    | none => []
    | some tex => [pass.draw tex]
  | none => []

/-- The composite pass `recursion_effect_video_render` logs when it pops the
slot `s0` (lines 286-329). -/
def compose_pass (f : recursion_effect_info) (s0 : frame) : pass :=
  pass.compose f.render (gs_texrender_begin f.gs f.render f.cx f.cy).1
    (if (gs_texrender_begin f.gs f.render f.cx f.cy).1 then
      gs_texrender_get_texture (gs_texrender_begin f.gs f.render f.cx f.cy).2 s0.render
     else none)
    f.inversed

/-- The state of `recursion_effect_video_render` at line 335, after the
oldest slot `s0` was popped, the scratch target composed, both render targets
swapped and the slot pushed back behind `rest`. -/
def composed (f : recursion_effect_info) (s0 : frame) (rest : List frame) :
    recursion_effect_info :=
  { f with
    render := s0.render
    frames := rest ++ [{ s0 with render := f.render }]
    gs := log_pass (gs_texrender_begin f.gs f.render f.cx f.cy).2 (compose_pass f s0) }

/-- The graphics record once `update_interval` has made sure a scratch target
exists (lines 73-77). -/
def scratch_gs (f : recursion_effect_info) : graphics :=
  match f.render with
  | none => (gs_texrender_create f.gs).2
  | some _ => f.gs

/-- The scratch target once `update_interval` has made sure one exists. -/
def scratch_render (f : recursion_effect_info) : Nat :=
  match f.render with
  | none => f.gs.next
  | some h => h

/-- A slot as `update_interval` creates it: zero-filled by `deque_upsize`,
then given the render target `h`. -/
def new_frame (h : Nat) : frame :=
  { render := some h, ts := 0 }

/-- The filter owns its render targets: the held ones are pairwise distinct,
were all handed out by the graphics record, and are exactly the live ones. -/
def owned (f : recursion_effect_info) : Prop :=
  (held f).Nodup ∧ (∀ h ∈ held f, h < f.gs.next) ∧ f.gs.live.Perm (held f)

/-- What `reset_textures` builds when the target is valid and the host
interval `n` is non-zero. -/
def rebuilt (f : recursion_effect_info) (n : Nat) : recursion_effect_info :=
  { f with
    frames := (List.range' (f.gs.next + 1) (required_count f.delay_ns n)).map new_frame
    render := some f.gs.next
    interval_ns := n
    gs := { f.gs with
      next := f.gs.next + 1 + required_count f.delay_ns n
      live := f.gs.live.diff (held f) ++
        List.range' f.gs.next (required_count f.delay_ns n + 1)
      created := f.gs.created ++ List.range' f.gs.next (required_count f.delay_ns n + 1)
      destroyed := f.gs.destroyed ++ held f } }

/-- The buffer is settled: every slot has a render target, and either the
filter holds nothing (no slot, null scratch target) or `interval_ns` is
positive, the scratch target is non-null and the slot count is
`max 1 (delay_ns / interval_ns)`. -/
def settled (f : recursion_effect_info) : Prop :=
  (∀ fr ∈ f.frames, fr.render ≠ none) ∧
    ((f.frames = [] ∧ f.render = none) ∨
      (0 < f.interval_ns ∧ f.render ≠ none ∧
        f.frames.length = max 1 (f.delay_ns / f.interval_ns)))

/-! ## Sample inputs -/

/-- A host at 30000/1000 frames per second whose target is 1920 by 1080. -/
def host_1080p : host :=
  { target := some (1920, 1080), parent := true, fps_num := 30000, fps_den := 1000,
    enabled := true }

/-- The same host with a target of 1280 by 720. -/
def host_720p : host :=
  { host_1080p with target := some (1280, 720) }

/-- The same host while the filter has no target. -/
def host_no_target : host :=
  { host_1080p with target := none }

/-- The same host while the target reports a base width of zero. -/
def host_zero_width : host :=
  { host_1080p with target := some (0, 1080) }

/-- The same host while the filter is disabled. -/
def host_disabled : host :=
  { host_1080p with enabled := false }

/-- Settings with a delay of 100 ms and no reset trigger. -/
def settings_100ms : settings :=
  { delay_ms := 100, inversed := false, reset_trigger := RESET_TRIGGER_NONE }

/-- Settings with a delay of 50 ms and no reset trigger. -/
def settings_50ms : settings :=
  { delay_ms := 50, inversed := false, reset_trigger := RESET_TRIGGER_NONE }

/-- Settings with a delay of 100 ms and the Enable reset trigger. -/
def settings_enable : settings :=
  { delay_ms := 100, inversed := false, reset_trigger := RESET_TRIGGER_ENABLE }

/-- A filter created with a delay of 100 ms after its first tick at 1080p and
30000/1000 frames per second: three slots and a scratch target. -/
def running_1080p : recursion_effect_info :=
  run (recursion_effect_create settings_100ms) [callback.tick host_1080p]

/-- A filter created with a delay of 100 ms whose target was just found
valid and that holds no render target yet. -/
def valid_empty : recursion_effect_info :=
  { recursion_effect_create settings_100ms with target_valid := true, cx := 1920, cy := 1080 }

/-- The running sample filter after one more tick during which the filter
had no target. -/
def paused_1080p : recursion_effect_info :=
  run (recursion_effect_create settings_100ms)
    [callback.tick host_1080p, callback.tick host_no_target]

/-- The sample filter after a first tick at 1080p, a tick without target, a
settings update to 50 ms made meanwhile, and a tick with the target back at
1080p. -/
def stalled_1080p : recursion_effect_info :=
  run (recursion_effect_create settings_100ms)
    [callback.tick host_1080p, callback.tick host_no_target,
      callback.update settings_50ms, callback.tick host_1080p]

/-- Filter created with the Enable trigger after its first tick: three slots
and a scratch target. -/
def running_enable : recursion_effect_info :=
  run (recursion_effect_create settings_enable) [callback.tick host_1080p]

/-! ## The loops in closed form -/

theorem free_textures_loop_eq (l : List frame) (g : graphics) :
    free_textures_loop l g =
      { g with live := g.live.diff (l.filterMap (fun fr => fr.render))
               destroyed := g.destroyed ++ l.filterMap (fun fr => fr.render) } := by
  induction l generalizing g with
  | nil => simp [free_textures_loop]
  | cons fr rest ih =>
    rw [free_textures_loop, ih]
    cases hr : fr.render <;>
      simp [gs_texrender_destroy, hr, List.filterMap_cons, List.diff_cons]

theorem free_textures_eq (f : recursion_effect_info) :
    free_textures f =
      { f with frames := [], render := none,
               gs := { f.gs with live := f.gs.live.diff (held f)
                                 destroyed := f.gs.destroyed ++ held f } } := by
  unfold free_textures held
  rw [free_textures_loop_eq]
  rcases f with ⟨frames, render, d, i, cx, cy, tv, pf, inv, rt, g⟩
  cases frames <;> cases render <;>
    simp [gs_texrender_destroy, List.diff_append, List.diff_cons]

theorem modify_length_append (fn : frame → frame) (pre : List frame) (a : frame)
    (rest : List frame) :
    (pre ++ a :: rest).modify fn pre.length = pre ++ fn a :: rest := by
  induction pre with
  | nil => simp
  | cons b pre ih => simp [ih]

theorem update_interval_fill_eq (k : Nat) (pre : List frame) (g : graphics) :
    update_interval_fill k pre.length
        (pre ++ List.replicate k { render := none, ts := 0 }) g =
      (pre ++ (List.range' g.next k).map new_frame,
        { g with next := g.next + k, live := g.live ++ List.range' g.next k
                 created := g.created ++ List.range' g.next k }) := by
  induction k generalizing pre g with
  | zero => simp [update_interval_fill]
  | succ k ih =>
    have hm : (pre ++ List.replicate (k + 1) ({ render := none, ts := 0 } : frame)).modify
        (fun fr => { fr with render := some g.next }) pre.length
        = (pre ++ [new_frame g.next]) ++ List.replicate k { render := none, ts := 0 } := by
      rw [List.replicate_succ, modify_length_append]
      simp [new_frame]
    have hl : pre.length + 1 = (pre ++ [new_frame g.next]).length := by simp
    rw [update_interval_fill]
    simp only [gs_texrender_create]
    rw [hm, hl, ih]
    simp [List.range'_succ, Nat.add_assoc, Nat.add_comm 1 k]

theorem update_interval_shrink_eq (num : Nat) (l : List frame) (g : graphics) :
    update_interval_shrink num l g =
      (l.drop (l.length - num),
        { g with
          live := g.live.diff ((l.take (l.length - num)).filterMap (fun fr => fr.render))
          destroyed := g.destroyed ++
            (l.take (l.length - num)).filterMap (fun fr => fr.render) }) := by
  induction l generalizing g with
  | nil => simp [update_interval_shrink]
  | cons fr rest ih =>
    rw [update_interval_shrink]
    by_cases hgt : num_frames (fr :: rest) > num
    · rw [if_pos hgt, ih]
      simp only [num_frames, List.length_cons] at hgt
      have e : (fr :: rest).length - num = (rest.length - num) + 1 := by
        simp only [List.length_cons]; omega
      rw [e]
      cases hr : fr.render <;>
        simp [gs_texrender_destroy, hr, List.filterMap_cons, List.diff_cons]
    · rw [if_neg hgt]
      simp only [num_frames, List.length_cons] at hgt
      have e : (fr :: rest).length - num = 0 := by
        simp only [List.length_cons]; omega
      rw [e]; simp

theorem update_interval_invalid (f : recursion_effect_info) (n : Nat)
    (h : f.target_valid = false ∨ n = 0) : update_interval f n = free_textures f := by
  unfold update_interval
  rcases h with h | h <;> simp [h]

theorem update_interval_valid (f : recursion_effect_info) (n : Nat)
    (hv : f.target_valid = true) (hn : n ≠ 0) :
    update_interval f n =
      { f with
        render := some (scratch_render f)
        interval_ns := n
        frames := f.frames.drop (f.frames.length - required_count f.delay_ns n) ++
          (List.range' (scratch_gs f).next
            (required_count f.delay_ns n - f.frames.length)).map new_frame
        gs := { scratch_gs f with
          next := (scratch_gs f).next + (required_count f.delay_ns n - f.frames.length)
          live := ((scratch_gs f).live.diff
              ((f.frames.take (f.frames.length - required_count f.delay_ns n)).filterMap
                (fun fr => fr.render))) ++
            List.range' (scratch_gs f).next (required_count f.delay_ns n - f.frames.length)
          created := (scratch_gs f).created ++ List.range' (scratch_gs f).next
            (required_count f.delay_ns n - f.frames.length)
          destroyed := (scratch_gs f).destroyed ++
            (f.frames.take (f.frames.length - required_count f.delay_ns n)).filterMap
              (fun fr => fr.render) } } := by
  have hm : (if f.delay_ns / n = 0 then 1 else f.delay_ns / n)
      = required_count f.delay_ns n := by
    unfold required_count
    by_cases h0 : f.delay_ns / n = 0
    · simp [h0]
    · have : 1 ≤ f.delay_ns / n := Nat.one_le_iff_ne_zero.mpr h0
      simp [h0, Nat.max_eq_right this]
  rcases f with ⟨frames, render, d, i, cx, cy, tv, pf, inv, rt, g⟩
  simp only at hv hm
  subst hv
  unfold update_interval
  rcases Nat.lt_trichotomy frames.length (required_count d n) with hlt | heq | hgt
  · have h1 : frames.length - required_count d n = 0 := by omega
    cases render <;>
      simp [hn, hm, num_frames, hlt, h1, deque_upsize, update_interval_fill_eq, scratch_gs,
        scratch_render, gs_texrender_create]
  · cases render <;>
      simp [hn, hm, num_frames, ← heq, scratch_gs, scratch_render, gs_texrender_create]
  · have h1 : required_count d n - frames.length = 0 := by omega
    have h2 : ¬ frames.length < required_count d n := by omega
    cases render <;>
      simp [hn, hm, num_frames, hgt, h1, h2, update_interval_shrink_eq, scratch_gs,
        scratch_render, gs_texrender_create]

theorem scratch_gs_destroyed (f : recursion_effect_info) :
    (scratch_gs f).destroyed = f.gs.destroyed := by
  unfold scratch_gs; cases f.render <;> simp [gs_texrender_create]

theorem required_count_pos (d n : Nat) : 0 < required_count d n := by
  unfold required_count; omega

/-! ## The render step in closed form -/

theorem draw_frame_eq (f : recursion_effect_info) :
    draw_frame f = { f with gs := { f.gs with passes := f.gs.passes ++ draw_passes f } } := by
  unfold draw_frame draw_passes
  cases h1 : f.frames.getLast? with
  | none => simp
  | some fr =>
    cases h2 : gs_texrender_get_texture f.gs fr.render with
    | none => simp [h2]
    | some tex => simp [h2, log_pass]

theorem draw_passes_congr (f g : recursion_effect_info) (h1 : g.frames = f.frames)
    (h2 : g.gs.begun = f.gs.begun) : draw_passes g = draw_passes f := by
  have ht : ∀ t, gs_texrender_get_texture g.gs t = gs_texrender_get_texture f.gs t := by
    intro t
    cases t with
    | none => rfl
    | some x => simp only [gs_texrender_get_texture, h2]
  unfold draw_passes
  rw [h1]
  cases f.frames.getLast? with
  | none => rfl
  | some fr => simp only [ht]

theorem video_render_compose (f : recursion_effect_info) (h : host) (s0 : frame)
    (rest : List frame) (hv : f.target_valid = true) (ht : h.target.isSome = true)
    (hp : h.parent = true) (hf : f.frames = s0 :: rest) (hpf : f.processed_frame = false) :
    recursion_effect_video_render f h =
      { draw_frame (composed f s0 rest) with processed_frame := true } := by
  rcases f with ⟨frames, render, d, i, cx, cy, tv, pf, inv, rt, g⟩
  simp only at hv hf hpf
  subst hv hf hpf
  cases htg : h.target with
  | none => simp [htg] at ht
  | some t =>
    simp [recursion_effect_video_render, htg, hp, composed, compose_pass]

theorem log_pass_begin (g : graphics) (t : Option Nat) (cx cy : Nat) (p : pass) :
    log_pass (gs_texrender_begin g t cx cy).2 p =
      { g with passes := g.passes ++ [p]
               begun := (gs_texrender_begin g t cx cy).2.begun } := by
  cases t with
  | none => rfl
  | some x =>
    simp only [gs_texrender_begin]
    split <;> rfl

theorem composed_gs (f : recursion_effect_info) (s0 : frame) (rest : List frame) :
    (composed f s0 rest).gs =
      { f.gs with passes := f.gs.passes ++ [compose_pass f s0]
                  begun := (gs_texrender_begin f.gs f.render f.cx f.cy).2.begun } :=
  log_pass_begin f.gs f.render f.cx f.cy (compose_pass f s0)

theorem video_render_compose_eq (f : recursion_effect_info) (h : host) (s0 : frame)
    (rest : List frame) (hv : f.target_valid = true) (ht : h.target.isSome = true)
    (hp : h.parent = true) (hf : f.frames = s0 :: rest) (hpf : f.processed_frame = false) :
    recursion_effect_video_render f h =
      { f with
        render := s0.render
        frames := rest ++ [{ s0 with render := f.render }]
        processed_frame := true
        gs := { f.gs with
          passes := f.gs.passes ++ [compose_pass f s0] ++ draw_passes (composed f s0 rest)
          begun := (gs_texrender_begin f.gs f.render f.cx f.cy).2.begun } } := by
  rw [video_render_compose f h s0 rest hv ht hp hf hpf, draw_frame_eq, composed_gs]
  rfl

theorem video_render_redraw (f : recursion_effect_info) (h : host)
    (hv : f.target_valid = true) (ht : h.target.isSome = true) (hp : h.parent = true)
    (hf : f.frames ≠ []) (hpf : f.processed_frame = true) :
    recursion_effect_video_render f h = draw_frame f := by
  cases htg : h.target with
  | none => simp [htg] at ht
  | some t =>
    simp [recursion_effect_video_render, htg, hp, hv, hpf, hf]

theorem held_append_frame (frames : List frame) (fr : frame) :
    List.filterMap (fun fr => fr.render) (frames ++ [fr]) =
      List.filterMap (fun fr => fr.render) frames ++ fr.render.toList := by
  cases h : fr.render <;> simp [List.filterMap_append, List.filterMap_cons, h]

theorem diff_self_nil (l : List Nat) : l.diff l = [] := by
  induction l with
  | nil => rfl
  | cons a l ih => simp [List.diff_cons, ih]

theorem diff_eq_nil_of_perm {l d : List Nat} (h : l.Perm d) : l.diff d = [] := by
  rw [List.Perm.diff_left l h.symm, diff_self_nil]

theorem running_1080p_owned : owned running_1080p := by
  refine ⟨by decide, by decide, ?_⟩
  show List.Perm [0, 1, 2, 3] [1, 2, 3, 0]
  exact (List.perm_append_singleton 0 [1, 2, 3]).symm

/-! ## The tick in closed form -/

theorem check_interval_eq (f : recursion_effect_info) (h : host) :
    check_interval f h =
      if util_mul_div64 h.fps_den 1000000000 h.fps_num = f.interval_ns then f
      else update_interval f (util_mul_div64 h.fps_den 1000000000 h.fps_num) := by
  unfold check_interval
  by_cases e : util_mul_div64 h.fps_den 1000000000 h.fps_num = f.interval_ns <;> simp [e]

theorem reset_textures_valid (f : recursion_effect_info) (h : host)
    (hv : f.target_valid = true)
    (hi : util_mul_div64 h.fps_den 1000000000 h.fps_num ≠ 0) :
    reset_textures f h = rebuilt f (util_mul_div64 h.fps_den 1000000000 h.fps_num) := by
  unfold reset_textures
  rw [check_interval_eq, free_textures_eq]
  simp only [if_neg hi]
  rw [update_interval_valid _ _ (by simpa using hv) hi]
  simp [rebuilt, scratch_gs, scratch_render, gs_texrender_create, List.range'_succ, held,
    Nat.add_assoc]

theorem filterMap_new_frame (l : List Nat) :
    (l.map new_frame).filterMap (fun fr => fr.render) = l := by
  induction l with
  | nil => rfl
  | cons a l ih =>
    rw [List.map_cons, List.filterMap_cons]
    simp only [new_frame] at ih ⊢
    rw [ih]

theorem held_rebuilt (f : recursion_effect_info) (n : Nat) :
    held (rebuilt f n) =
      List.range' (f.gs.next + 1) (required_count f.delay_ns n) ++ [f.gs.next] := by
  simp only [held, rebuilt]
  rw [filterMap_new_frame]
  rfl

theorem tick_no_drain (f : recursion_effect_info) (h : host)
    (hd : ¬ (f.reset_trigger = RESET_TRIGGER_ENABLE ∧ h.enabled = false)) :
    recursion_effect_tick f h =
      if (check_size { f with processed_frame := false } h).2 then
        (check_size { f with processed_frame := false } h).1
      else check_interval (check_size { f with processed_frame := false } h).1 h := by
  unfold recursion_effect_tick
  by_cases h1 : f.reset_trigger = RESET_TRIGGER_ENABLE
  · have h2 : h.enabled = true := by
      cases he : h.enabled
      · exact absurd ⟨h1, he⟩ hd
      · rfl
    simp [h1, h2]
  · simp [h1]

theorem tick_drain (f : recursion_effect_info) (h : host)
    (hr : f.reset_trigger = RESET_TRIGGER_ENABLE) (hd : h.enabled = false) :
    recursion_effect_tick f h =
      free_textures { f with processed_frame := false, interval_ns := 0 } := by
  unfold recursion_effect_tick
  simp [hr, hd]

theorem check_size_changed (f : recursion_effect_info) (h : host) (cx cy : Nat)
    (ht : h.target = some (cx, cy)) (hcx : cx ≠ 0) (hcy : cy ≠ 0)
    (hch : cx ≠ f.cx ∨ cy ≠ f.cy) :
    check_size f h =
      (reset_textures { f with target_valid := true, cx := cx, cy := cy } h, true) := by
  have hbx : (cx != 0) = true := by simpa using hcx
  have hby : (cy != 0) = true := by simpa using hcy
  unfold check_size
  rcases hch with hch | hch <;> simp [ht, hbx, hby, hch]

theorem check_size_same (f : recursion_effect_info) (h : host)
    (ht : h.target = some (f.cx, f.cy)) (hcx : f.cx ≠ 0) (hcy : f.cy ≠ 0) :
    check_size f h = ({ f with target_valid := true }, false) := by
  have hbx : (f.cx != 0) = true := by simpa using hcx
  have hby : (f.cy != 0) = true := by simpa using hcy
  unfold check_size
  simp [ht, hbx, hby]

theorem tick_rebuild_of_change (f : recursion_effect_info) (h : host) (cx cy : Nat)
    (hd : ¬ (f.reset_trigger = RESET_TRIGGER_ENABLE ∧ h.enabled = false))
    (ht : h.target = some (cx, cy)) (hcx : cx ≠ 0) (hcy : cy ≠ 0)
    (hch : cx ≠ f.cx ∨ cy ≠ f.cy)
    (hi : util_mul_div64 h.fps_den 1000000000 h.fps_num ≠ 0) :
    recursion_effect_tick f h =
      rebuilt { f with processed_frame := false, target_valid := true, cx := cx, cy := cy }
        (util_mul_div64 h.fps_den 1000000000 h.fps_num) := by
  rw [tick_no_drain f h hd,
    check_size_changed { f with processed_frame := false } h cx cy ht hcx hcy hch]
  simp only [if_true]
  rw [reset_textures_valid _ h rfl hi]

theorem tick_rebuilds_empty (s : recursion_effect_info) (h : host) (cx cy : Nat)
    (he : h.enabled = true) (ht : h.target = some (cx, cy)) (hcx : cx ≠ 0) (hcy : cy ≠ 0)
    (hi : util_mul_div64 h.fps_den 1000000000 h.fps_num ≠ 0)
    (hf : s.frames = []) (hr : s.render = none) (h0 : s.interval_ns = 0) :
    recursion_effect_tick s h =
      rebuilt { s with processed_frame := false, target_valid := true, cx := cx, cy := cy }
        (util_mul_div64 h.fps_den 1000000000 h.fps_num) := by
  have hd : ¬ (s.reset_trigger = RESET_TRIGGER_ENABLE ∧ h.enabled = false) := by
    simp [he]
  by_cases hch : cx ≠ s.cx ∨ cy ≠ s.cy
  · exact tick_rebuild_of_change s h cx cy hd ht hcx hcy hch hi
  · have hx : cx = s.cx := by
      by_contra hne; exact hch (Or.inl hne)
    have hy : cy = s.cy := by
      by_contra hne; exact hch (Or.inr hne)
    subst hx hy
    rw [tick_no_drain s h hd,
      check_size_same { s with processed_frame := false } h ht hcx hcy]
    simp only [Bool.false_eq_true, if_false]
    rw [check_interval_eq]
    simp only [h0, if_neg hi]
    rw [update_interval_valid _ _ rfl hi]
    rcases s with ⟨frames, render, d, i, cx, cy, tv, pf, inv, rt, g⟩
    simp only at hf hr h0
    subst hf hr h0
    simp [rebuilt, scratch_gs, scratch_render, gs_texrender_create, List.range'_succ, held,
      Nat.add_assoc]

theorem delay_clamp (d : Int) : (if d > 0 then d.toNat else 1) = (max d 1).toNat := by
  by_cases h : d > 0
  · have : max d 1 = d := max_eq_left (by omega)
    simp [h, this]
  · have : max d 1 = 1 := max_eq_right (by omega)
    simp [h, this]

theorem update_delay_changed (f : recursion_effect_info) (s : settings)
    (hi : f.interval_ns ≠ 0)
    (hd : ((max s.delay_ms 1).toNat * 1000000) % 2 ^ 64 ≠ f.delay_ns) :
    recursion_effect_update f s =
      { update_interval
          { f with delay_ns := ((max s.delay_ms 1).toNat * 1000000) % 2 ^ 64 } f.interval_ns with
        inversed := s.inversed, reset_trigger := s.reset_trigger } := by
  unfold recursion_effect_update
  simp only [delay_clamp, bne_iff_ne, ne_eq, hd, hi, not_false_eq_true, if_true]

/-! ## One composite per tick -/

theorem update_interval_processed_frame (f : recursion_effect_info) (n : Nat) :
    (update_interval f n).processed_frame = f.processed_frame := by
  by_cases h : f.target_valid = false ∨ n = 0
  · rw [update_interval_invalid f n h, free_textures_eq]
  · have hv : f.target_valid = true := by
      cases hf : f.target_valid
      · exact absurd (Or.inl hf) h
      · rfl
    have hn : n ≠ 0 := fun hn => h (Or.inr hn)
    rw [update_interval_valid f n hv hn]

theorem check_interval_processed_frame (f : recursion_effect_info) (h : host) :
    (check_interval f h).processed_frame = f.processed_frame := by
  rw [check_interval_eq]
  split
  · rfl
  · exact update_interval_processed_frame f _

theorem reset_textures_processed_frame (f : recursion_effect_info) (h : host) :
    (reset_textures f h).processed_frame = f.processed_frame := by
  unfold reset_textures
  rw [check_interval_processed_frame, free_textures_eq]

theorem check_size_processed_frame (f : recursion_effect_info) (h : host) :
    (check_size f h).1.processed_frame = f.processed_frame := by
  unfold check_size
  cases ht : h.target with
  | none => rfl
  | some t =>
    obtain ⟨cx, cy⟩ := t
    simp only
    split
    · rfl
    · split
      · exact reset_textures_processed_frame _ h
      · rfl

theorem tick_processed_frame (f : recursion_effect_info) (h : host) :
    (recursion_effect_tick f h).processed_frame = false := by
  unfold recursion_effect_tick
  simp only
  split
  · rw [free_textures_eq]
  · split
    · exact check_size_processed_frame _ h
    · rw [check_interval_processed_frame]
      exact check_size_processed_frame _ h

theorem composites_append (ps qs : List pass) :
    composites (ps ++ qs) = composites ps + composites qs := by
  simp [composites, List.countP_append]

theorem composites_draw_passes (f : recursion_effect_info) :
    composites (draw_passes f) = 0 := by
  unfold draw_passes
  cases h1 : f.frames.getLast? with
  | none => rfl
  | some fr =>
    cases h2 : gs_texrender_get_texture f.gs fr.render with
    | none => simp only [h2]; rfl
    | some tex => simp only [h2]; rfl

theorem composites_redraws (j : Nat) (f : recursion_effect_info) :
    composites (List.replicate j (draw_passes f)).flatten = 0 := by
  induction j with
  | zero => rfl
  | succ j ih =>
    rw [List.replicate_succ, List.flatten_cons, composites_append, composites_draw_passes, ih]

theorem video_render_redraws (s : recursion_effect_info) (rs : List host) (dp : List pass)
    (hr : ∀ x ∈ rs, x.target.isSome = true ∧ x.parent = true)
    (hv : s.target_valid = true) (hne : s.frames ≠ [])
    (hpf : s.processed_frame = true) (hdp : draw_passes s = dp) :
    rs.foldl recursion_effect_video_render s =
      { s with gs := { s.gs with
          passes := s.gs.passes ++ (List.replicate rs.length dp).flatten } } := by
  induction rs generalizing s with
  | nil => simp
  | cons r rs ih =>
    have hr0 := hr r (List.mem_cons_self _ _)
    rw [List.foldl_cons, video_render_redraw s r hv hr0.1 hr0.2 hne hpf, draw_frame_eq, hdp]
    have key := ih { s with gs := { s.gs with passes := s.gs.passes ++ dp } }
      (fun x hx => hr x (List.mem_cons_of_mem _ hx)) hv hne hpf
      ((draw_passes_congr s _ rfl rfl).trans hdp)
    rw [key]
    simp [List.replicate_succ]

/-- A tick keeps the render preconditions: when the buffer is non-empty, the
Enable drain does not apply, the target exists with non-zero base size and
the host interval is non-zero, the state after the tick has a valid target
and a non-empty buffer. -/
theorem tick_keeps_preconditions (f : recursion_effect_info) (h : host) (cx cy : Nat)
    (hd : ¬ (f.reset_trigger = RESET_TRIGGER_ENABLE ∧ h.enabled = false))
    (ht : h.target = some (cx, cy)) (hcx : cx ≠ 0) (hcy : cy ≠ 0)
    (hi : util_mul_div64 h.fps_den 1000000000 h.fps_num ≠ 0) (hne : f.frames ≠ []) :
    (recursion_effect_tick f h).target_valid = true ∧
      (recursion_effect_tick f h).frames ≠ [] := by
  by_cases hch : cx ≠ f.cx ∨ cy ≠ f.cy
  · rw [tick_rebuild_of_change f h cx cy hd ht hcx hcy hch hi]
    refine ⟨rfl, ?_⟩
    have hp := required_count_pos f.delay_ns (util_mul_div64 h.fps_den 1000000000 h.fps_num)
    intro hnil
    have hlen := congrArg List.length hnil
    simp only [rebuilt, List.length_map, List.length_range', List.length_nil] at hlen
    omega
  · have hx : cx = f.cx := by
      by_contra hc; exact hch (Or.inl hc)
    have hy : cy = f.cy := by
      by_contra hc; exact hch (Or.inr hc)
    subst hx hy
    rw [tick_no_drain f h hd, check_size_same { f with processed_frame := false } h ht hcx hcy]
    simp only [Bool.false_eq_true, if_false]
    rw [check_interval_eq]
    split
    · exact ⟨rfl, hne⟩
    · rw [update_interval_valid _ _ rfl hi]
      refine ⟨rfl, ?_⟩
      have hp := required_count_pos f.delay_ns
        (util_mul_div64 h.fps_den 1000000000 h.fps_num)
      intro hnil
      have hlen := congrArg List.length hnil
      simp only [List.length_append, List.length_drop, List.length_map, List.length_range',
        List.length_nil] at hlen
      omega

/-! ## The buffer invariant over callback sequences -/

theorem settled_free_textures (f : recursion_effect_info) : settled (free_textures f) := by
  rw [free_textures_eq]
  exact ⟨by simp, Or.inl ⟨rfl, rfl⟩⟩

theorem settled_update_interval (f : recursion_effect_info) (n : Nat)
    (hs : ∀ fr ∈ f.frames, fr.render ≠ none) : settled (update_interval f n) := by
  by_cases h : f.target_valid = false ∨ n = 0
  · rw [update_interval_invalid f n h]
    exact settled_free_textures f
  · have hv : f.target_valid = true := by
      cases hf : f.target_valid
      · exact absurd (Or.inl hf) h
      · rfl
    have hn : n ≠ 0 := fun hn => h (Or.inr hn)
    have hp := required_count_pos f.delay_ns n
    rw [update_interval_valid f n hv hn]
    refine ⟨?_, Or.inr ⟨Nat.pos_of_ne_zero hn, by simp, ?_⟩⟩
    · intro fr hfr
      simp only [List.mem_append, List.mem_map] at hfr
      rcases hfr with hfr | ⟨x, _, rfl⟩
      · exact hs fr (List.mem_of_mem_drop hfr)
      · simp [new_frame]
    · simp only [List.length_append, List.length_drop, List.length_map, List.length_range']
      show _ = required_count f.delay_ns n
      omega

theorem settled_congr (f g : recursion_effect_info) (h1 : g.frames = f.frames)
    (h2 : g.render = f.render) (h3 : g.interval_ns = f.interval_ns)
    (h4 : g.delay_ns = f.delay_ns) (hs : settled f) : settled g := by
  unfold settled at hs ⊢
  rw [h1, h2, h3, h4]
  exact hs

theorem settled_check_interval (f : recursion_effect_info) (h : host) (hs : settled f) :
    settled (check_interval f h) := by
  rw [check_interval_eq]
  split
  · exact hs
  · exact settled_update_interval f _ hs.1

theorem settled_reset_textures (f : recursion_effect_info) (h : host) :
    settled (reset_textures f h) := by
  unfold reset_textures
  exact settled_check_interval _ h (settled_free_textures _)

theorem settled_update (f : recursion_effect_info) (s : settings) (hs : settled f) :
    settled (recursion_effect_update f s) := by
  by_cases hd : ((max s.delay_ms 1).toNat * 1000000) % 2 ^ 64 = f.delay_ns
  · have e : recursion_effect_update f s =
        { f with inversed := s.inversed, reset_trigger := s.reset_trigger } := by
      unfold recursion_effect_update
      simp only [delay_clamp, bne_iff_ne, ne_eq, hd, not_true_eq_false, if_false]
    rw [e]
    exact settled_congr f _ rfl rfl rfl rfl hs
  · by_cases hz : f.interval_ns = 0
    · have e : recursion_effect_update f s =
          { f with delay_ns := ((max s.delay_ms 1).toNat * 1000000) % 2 ^ 64,
                   inversed := s.inversed, reset_trigger := s.reset_trigger } := by
        unfold recursion_effect_update
        simp only [delay_clamp, bne_iff_ne, ne_eq, hd, hz, not_false_eq_true,
          not_true_eq_false, if_true, if_false]
      rw [e]
      refine ⟨hs.1, Or.inl ?_⟩
      rcases hs.2 with hl | hr
      · exact hl
      · exact absurd hz (Nat.pos_iff_ne_zero.mp hr.1)
    · rw [update_delay_changed f s hz hd]
      exact settled_congr _ _ rfl rfl rfl rfl (settled_update_interval _ _ hs.1)

theorem settled_check_size (f : recursion_effect_info) (h : host) (hs : settled f) :
    settled (check_size f h).1 := by
  unfold check_size
  cases ht : h.target with
  | none => exact settled_congr f _ rfl rfl rfl rfl hs
  | some t =>
    obtain ⟨cx, cy⟩ := t
    simp only
    split
    · exact settled_congr f _ rfl rfl rfl rfl hs
    · split
      · exact settled_reset_textures _ h
      · exact settled_congr f _ rfl rfl rfl rfl hs

theorem settled_tick (f : recursion_effect_info) (h : host) (hs : settled f) :
    settled (recursion_effect_tick f h) := by
  have h0 : settled { f with processed_frame := false } :=
    settled_congr f _ rfl rfl rfl rfl hs
  unfold recursion_effect_tick
  simp only
  split
  · exact settled_free_textures _
  · split
    · exact settled_check_size _ h h0
    · exact settled_check_interval _ h (settled_check_size _ h h0)

theorem settled_draw_frame (f : recursion_effect_info) (hs : settled f) :
    settled (draw_frame f) := by
  rw [draw_frame_eq]
  exact settled_congr f _ rfl rfl rfl rfl hs

theorem video_render_cases (f : recursion_effect_info) (h : host) :
    recursion_effect_video_render f h = { f with gs := log_pass f.gs pass.skip } ∨
      recursion_effect_video_render f h = draw_frame f ∨
      ∃ s0 rest, f.frames = s0 :: rest ∧
        recursion_effect_video_render f h =
          { f with
            render := s0.render
            frames := rest ++ [{ s0 with render := f.render }]
            processed_frame := true
            gs := { f.gs with
              passes := f.gs.passes ++ [compose_pass f s0] ++
                draw_passes (composed f s0 rest)
              begun := (gs_texrender_begin f.gs f.render f.cx f.cy).2.begun } } := by
  by_cases hskip : (!f.target_valid || h.target.isNone || !h.parent || f.frames.isEmpty) = true
  · left
    unfold recursion_effect_video_render
    rw [if_pos hskip]
  · simp only [Bool.or_eq_true, Bool.not_eq_true', not_or, Bool.not_eq_false,
      Option.isNone_iff_eq_none, List.isEmpty_iff] at hskip
    obtain ⟨⟨⟨hv, ht⟩, hp⟩, hne⟩ := hskip
    have ht2 : h.target.isSome = true := by
      cases hh : h.target
      · exact absurd hh ht
      · rfl
    right
    cases hpf : f.processed_frame
    · right
      cases hfr : f.frames with
      | nil => exact absurd hfr hne
      | cons s0 rest =>
        exact ⟨s0, rest, rfl, video_render_compose_eq f h s0 rest hv ht2 hp hfr hpf⟩
    · left
      exact video_render_redraw f h hv ht2 hp hne hpf

theorem settled_video_render (f : recursion_effect_info) (h : host) (hs : settled f) :
    settled (recursion_effect_video_render f h) := by
  rcases video_render_cases f h with e | e | ⟨fr, rest, hf, e⟩
  · rw [e]; exact settled_congr f _ rfl rfl rfl rfl hs
  · rw [e]; exact settled_draw_frame f hs
  · rw [e]
    have hfr : fr.render ≠ none := hs.1 fr (by rw [hf]; exact List.mem_cons_self _ _)
    rcases hs.2 with hl | hr
    · rw [hf] at hl; exact absurd hl.1 (List.cons_ne_nil _ _)
    · refine ⟨?_, Or.inr ⟨hr.1, hfr, ?_⟩⟩
      · intro x hx
        simp only [List.mem_append, List.mem_singleton] at hx
        rcases hx with hx | rfl
        · exact hs.1 x (by rw [hf]; exact List.mem_cons_of_mem _ hx)
        · exact hr.2.1
      · have := hr.2.2
        rw [hf] at this
        simpa using this

theorem settled_step (f : recursion_effect_info) (c : callback) (hs : settled f) :
    settled (step f c) := by
  rcases c with s | h | h | h | h | h | h
  · exact settled_update f s hs
  · exact settled_tick f h hs
  · exact settled_video_render f h hs
  · simp only [step, recursion_effect_show]; split
    · exact settled_reset_textures f h
    · exact hs
  · simp only [step, recursion_effect_hide]; split
    · exact settled_reset_textures f h
    · exact hs
  · simp only [step, recursion_effect_activate]; split
    · exact settled_reset_textures f h
    · exact hs
  · simp only [step, recursion_effect_deactivate]; split
    · exact settled_reset_textures f h
    · exact hs

theorem settled_create (s : settings) : settled (recursion_effect_create s) := by
  unfold recursion_effect_create
  exact settled_update _ s ⟨by simp, Or.inl ⟨rfl, rfl⟩⟩

theorem settled_of_reachable {f : recursion_effect_info} (hr : Reachable f) : settled f := by
  induction hr with
  | create s => exact settled_create s
  | step c _ ih => exact settled_step _ c ih

theorem reachable_run {f : recursion_effect_info} (hr : Reachable f) (cs : List callback) :
    Reachable (run f cs) := by
  induction cs generalizing f with
  | nil => exact hr
  | cons c cs ih => exact ih (Reachable.step c hr)

/-! ## Ownership of render targets over callback sequences -/

theorem append_diff_left (A X : List Nat) : (A ++ X).diff A = X := by
  induction A with
  | nil => simp
  | cons a A ih => simp [List.diff_cons, ih]

theorem owned_congr (f g : recursion_effect_info) (h1 : g.frames = f.frames)
    (h2 : g.render = f.render) (h3 : g.gs.live = f.gs.live) (h4 : g.gs.next = f.gs.next)
    (ho : owned f) : owned g := by
  unfold owned held at ho ⊢
  rw [h1, h2, h3, h4]
  exact ho

theorem owned_free_textures (f : recursion_effect_info) (ho : owned f) :
    owned (free_textures f) := by
  rw [free_textures_eq]
  refine ⟨List.nodup_nil, fun x hx => absurd hx (List.not_mem_nil x), ?_⟩
  show (f.gs.live.diff (held f)).Perm []
  rw [diff_eq_nil_of_perm ho.2.2]

theorem owned_scratch (f : recursion_effect_info) (ho : owned f) :
    owned { f with render := some (scratch_render f), gs := scratch_gs f } := by
  cases hr : f.render with
  | some x =>
    have e : ({ f with render := some (scratch_render f), gs := scratch_gs f } :
        recursion_effect_info) = f := by
      rcases f with ⟨frames, render, d, i, cx, cy, tv, pf, inv, rt, g⟩
      simp only at hr
      subst hr
      simp [scratch_render, scratch_gs]
    rw [e]; exact ho
  | none =>
    obtain ⟨hnd, hlt, hp⟩ := ho
    have hh : held f = List.filterMap (fun fr => fr.render) f.frames := by
      simp [held, hr]
    rw [hh] at hnd hlt hp
    have hsr : scratch_render f = f.gs.next := by simp [scratch_render, hr]
    have hsg : scratch_gs f = (gs_texrender_create f.gs).2 := by simp [scratch_gs, hr]
    refine ⟨?_, ?_, ?_⟩
    · simp only [held, hsr, Option.toList]
      rw [List.nodup_append]
      refine ⟨hnd, by simp, ?_⟩
      intro x hx hx2
      have := hlt x hx
      simp only [List.mem_singleton] at hx2
      omega
    · intro x hx
      simp only [held, hsr, Option.toList, List.mem_append, List.mem_singleton] at hx
      simp only [hsg, gs_texrender_create]
      rcases hx with hx | hx
      · have := hlt x hx; omega
      · omega
    · simp only [held, hsr, hsg, gs_texrender_create, Option.toList]
      exact List.Perm.append_right _ hp

theorem owned_resized (A B : List Nat) (sr : Nat) (sg : graphics) (k : Nat)
    (g : recursion_effect_info) (hnd : (A ++ B ++ [sr]).Nodup)
    (hlt : ∀ x ∈ A ++ B ++ [sr], x < sg.next) (hp : sg.live.Perm (A ++ B ++ [sr]))
    (hh : held g = B ++ List.range' sg.next k ++ [sr]) (hn : g.gs.next = sg.next + k)
    (hl : g.gs.live = sg.live.diff A ++ List.range' sg.next k) : owned g := by
  have hndB : (B ++ [sr]).Nodup := by
    have : (A ++ (B ++ [sr])).Nodup := by simpa [List.append_assoc] using hnd
    exact (List.nodup_append.mp this).2.1
  have hltB : ∀ x ∈ B ++ [sr], x < sg.next := by
    intro x hx
    apply hlt
    simp only [List.mem_append, List.mem_singleton] at hx ⊢
    rcases hx with hx | hx
    · exact Or.inl (Or.inr hx)
    · exact Or.inr hx
  have hperm : (B ++ List.range' sg.next k ++ [sr]).Perm
      ((B ++ [sr]) ++ List.range' sg.next k) := by
    rw [List.append_assoc, List.append_assoc]
    exact List.Perm.append_left _ List.perm_append_comm
  unfold owned
  rw [hh, hn, hl]
  refine ⟨?_, ?_, ?_⟩
  · rw [hperm.nodup_iff, List.nodup_append]
    refine ⟨hndB, List.nodup_range' _ _, ?_⟩
    intro x hx hx2
    have := hltB x hx
    rw [List.mem_range'_1] at hx2
    omega
  · intro x hx
    simp only [List.mem_append, List.mem_singleton, List.mem_range'_1] at hx
    rcases hx with (hx | hx) | hx
    · have := hltB x (by simp [hx]); omega
    · omega
    · have := hltB x (by simp [hx]); omega
  · have h1 : (sg.live.diff A).Perm (B ++ [sr]) := by
      have := List.Perm.diff_right A hp
      rw [List.append_assoc, append_diff_left] at this
      exact this
    exact (List.Perm.append_right _ h1).trans hperm.symm

theorem owned_update_interval (f : recursion_effect_info) (n : Nat) (ho : owned f) :
    owned (update_interval f n) := by
  by_cases h : f.target_valid = false ∨ n = 0
  · rw [update_interval_invalid f n h]
    exact owned_free_textures f ho
  · have hv : f.target_valid = true := by
      cases hf : f.target_valid
      · exact absurd (Or.inl hf) h
      · rfl
    have hn : n ≠ 0 := fun hn => h (Or.inr hn)
    rw [update_interval_valid f n hv hn]
    obtain ⟨hnd, hlt, hp⟩ := owned_scratch f ho
    have hsplit : held { f with render := some (scratch_render f), gs := scratch_gs f } =
        List.filterMap (fun fr => fr.render)
            (f.frames.take (f.frames.length - required_count f.delay_ns n)) ++
          List.filterMap (fun fr => fr.render)
            (f.frames.drop (f.frames.length - required_count f.delay_ns n)) ++
          [scratch_render f] := by
      rw [← List.filterMap_append, List.take_append_drop]; rfl
    rw [hsplit] at hnd hlt hp
    refine owned_resized _ _ _ _ _ _ hnd hlt hp ?_ rfl rfl
    show List.filterMap _ (_ ++ _) ++ [scratch_render f] = _
    rw [List.filterMap_append, filterMap_new_frame]

theorem owned_check_interval (f : recursion_effect_info) (h : host) (ho : owned f) :
    owned (check_interval f h) := by
  rw [check_interval_eq]
  split
  · exact ho
  · exact owned_update_interval f _ ho

theorem owned_reset_textures (f : recursion_effect_info) (h : host) (ho : owned f) :
    owned (reset_textures f h) := by
  unfold reset_textures
  exact owned_check_interval _ h
    (owned_free_textures _ (owned_congr f _ rfl rfl rfl rfl ho))

theorem owned_update (f : recursion_effect_info) (s : settings) (ho : owned f) :
    owned (recursion_effect_update f s) := by
  by_cases hd : ((max s.delay_ms 1).toNat * 1000000) % 2 ^ 64 = f.delay_ns
  · have e : recursion_effect_update f s =
        { f with inversed := s.inversed, reset_trigger := s.reset_trigger } := by
      unfold recursion_effect_update
      simp only [delay_clamp, bne_iff_ne, ne_eq, hd, not_true_eq_false, if_false]
    rw [e]
    exact owned_congr f _ rfl rfl rfl rfl ho
  · by_cases hz : f.interval_ns = 0
    · have e : recursion_effect_update f s =
          { f with delay_ns := ((max s.delay_ms 1).toNat * 1000000) % 2 ^ 64,
                   inversed := s.inversed, reset_trigger := s.reset_trigger } := by
        unfold recursion_effect_update
        simp only [delay_clamp, bne_iff_ne, ne_eq, hd, hz, not_false_eq_true,
          not_true_eq_false, if_true, if_false]
      rw [e]
      exact owned_congr f _ rfl rfl rfl rfl ho
    · rw [update_delay_changed f s hz hd]
      exact owned_congr _ _ rfl rfl rfl rfl
        (owned_update_interval _ _ (owned_congr f _ rfl rfl rfl rfl ho))

theorem owned_check_size (f : recursion_effect_info) (h : host) (ho : owned f) :
    owned (check_size f h).1 := by
  unfold check_size
  cases ht : h.target with
  | none => exact owned_congr f _ rfl rfl rfl rfl ho
  | some t =>
    obtain ⟨cx, cy⟩ := t
    simp only
    split
    · exact owned_congr f _ rfl rfl rfl rfl ho
    · split
      · exact owned_reset_textures _ h (owned_congr f _ rfl rfl rfl rfl ho)
      · exact owned_congr f _ rfl rfl rfl rfl ho

theorem owned_tick (f : recursion_effect_info) (h : host) (ho : owned f) :
    owned (recursion_effect_tick f h) := by
  have h0 : owned { f with processed_frame := false } :=
    owned_congr f _ rfl rfl rfl rfl ho
  unfold recursion_effect_tick
  simp only
  split
  · exact owned_free_textures _ (owned_congr f _ rfl rfl rfl rfl ho)
  · split
    · exact owned_check_size _ h h0
    · exact owned_check_interval _ h (owned_check_size _ h h0)

theorem owned_draw_frame (f : recursion_effect_info) (ho : owned f) :
    owned (draw_frame f) := by
  rw [draw_frame_eq]
  exact owned_congr f _ rfl rfl rfl rfl ho

theorem held_rotate (f g : recursion_effect_info) (s0 : frame) (rest : List frame)
    (hf : f.frames = s0 :: rest) (hg1 : g.frames = rest ++ [{ s0 with render := f.render }])
    (hg2 : g.render = s0.render) : (held g).Perm (held f) := by
  simp only [held, hf, hg1, hg2, held_append_frame, List.filterMap_cons]
  cases hs : s0.render <;> cases hr : f.render <;> simp
  rename_i a b
  have e2 : List.filterMap (fun fr => fr.render) rest ++ [b, a] =
      (List.filterMap (fun fr => fr.render) rest ++ [b]) ++ [a] := by simp
  rw [e2]
  exact List.perm_append_singleton _ _

theorem owned_of_perm (f g : recursion_effect_info) (hperm : (held g).Perm (held f))
    (h3 : g.gs.live = f.gs.live) (h4 : g.gs.next = f.gs.next) (ho : owned f) : owned g := by
  obtain ⟨hnd, hlt, hp⟩ := ho
  unfold owned
  rw [h3, h4]
  exact ⟨hperm.nodup_iff.mpr hnd, fun x hx => hlt x (hperm.subset hx), hp.trans hperm.symm⟩

theorem owned_video_render (f : recursion_effect_info) (h : host) (ho : owned f) :
    owned (recursion_effect_video_render f h) := by
  rcases video_render_cases f h with e | e | ⟨s0, rest, hf, e⟩
  · rw [e]; exact owned_congr f _ rfl rfl rfl rfl ho
  · rw [e]; exact owned_draw_frame f ho
  · rw [e]
    exact owned_of_perm f _ (held_rotate f _ s0 rest hf rfl rfl) rfl rfl ho

theorem owned_step (f : recursion_effect_info) (c : callback) (ho : owned f) :
    owned (step f c) := by
  rcases c with s | h | h | h | h | h | h
  · exact owned_update f s ho
  · exact owned_tick f h ho
  · exact owned_video_render f h ho
  · simp only [step, recursion_effect_show]; split
    · exact owned_reset_textures f h ho
    · exact ho
  · simp only [step, recursion_effect_hide]; split
    · exact owned_reset_textures f h ho
    · exact ho
  · simp only [step, recursion_effect_activate]; split
    · exact owned_reset_textures f h ho
    · exact ho
  · simp only [step, recursion_effect_deactivate]; split
    · exact owned_reset_textures f h ho
    · exact ho

theorem owned_create (s : settings) : owned (recursion_effect_create s) := by
  unfold recursion_effect_create
  exact owned_update _ s ⟨by simp [held], by simp [held], by simp [held, graphics_empty]⟩

/-- Every reachable state owns its render targets, so the hypothesis `owned`
of the release and rebuild theorems holds throughout the life of a filter. -/
theorem owned_of_reachable {f : recursion_effect_info} (hr : Reachable f) : owned f := by
  induction hr with
  | create s => exact owned_create s
  | step c _ ih => exact owned_step _ c ih

/-! ## Claims -/

/-- C1: when the target is valid and the new interval is positive,
`update_interval` leaves exactly `max 1 (delay_ns / new_interval_ns)` slots, a
non-null scratch target and `interval_ns = new_interval_ns`, whatever the
buffer held before. -/
theorem update_interval_settles (f : recursion_effect_info) (new_interval_ns : Nat)
    (hv : f.target_valid = true) (hn : 0 < new_interval_ns) :
    num_frames (update_interval f new_interval_ns).frames
        = max 1 (f.delay_ns / new_interval_ns) ∧
      (update_interval f new_interval_ns).render ≠ none ∧
      (update_interval f new_interval_ns).interval_ns = new_interval_ns := by
  rw [update_interval_valid f _ hv (Nat.pos_iff_ne_zero.mp hn)]
  have hp := required_count_pos f.delay_ns new_interval_ns
  refine ⟨?_, by simp, rfl⟩
  simp only [num_frames, List.length_append, List.length_drop, List.length_map,
    List.length_range']
  show _ = required_count f.delay_ns new_interval_ns
  omega

/-- Witness of C1: at 30000/1000 frames per second the interval is 33333333 ns
and a delay of 100 ms settles to three slots. -/
theorem update_interval_settles_witness :
    util_mul_div64 1000 1000000000 30000 = 33333333 ∧
      valid_empty.delay_ns = 100000000 ∧
      check_interval valid_empty host_1080p = update_interval valid_empty 33333333 ∧
      num_frames (update_interval valid_empty 33333333).frames = 3 ∧
      (update_interval valid_empty 33333333).render ≠ none ∧
      (update_interval valid_empty 33333333).interval_ns = 33333333 :=
  ⟨by decide, by decide, by decide,
    update_interval_settles valid_empty 33333333 (by decide) (by decide)⟩

/-- C2, counterexample: after a first tick at 1080p and a tick without
target, the reachable state has an invalid target and still holds three
slots and a scratch target, so the invariant as claimed fails there. -/
theorem invalid_target_keeps_buffer :
    Reachable paused_1080p ∧ paused_1080p.target_valid = false ∧
      paused_1080p.frames.length = 3 ∧ paused_1080p.render = some 0 ∧
      ¬ ((0 < paused_1080p.interval_ns ∧ paused_1080p.target_valid = true →
            paused_1080p.frames.length
              = max 1 (paused_1080p.delay_ns / paused_1080p.interval_ns)) ∧
          (¬ (0 < paused_1080p.interval_ns ∧ paused_1080p.target_valid = true) →
            paused_1080p.frames.length = 0 ∧ paused_1080p.render = none)) := by
  refine ⟨reachable_run (Reachable.create settings_100ms) _, by decide, by decide,
    by decide, by decide⟩

/-- C2, amended: in every state reachable from a freshly created filter,
every slot has a render target and either the filter holds nothing (zero
slots, null scratch target) or `interval_ns > 0`, the scratch target is
non-null and the number of slots is `max 1 (delay_ns / interval_ns)`; in
particular `interval_ns = 0` forces zero slots and a null scratch target. -/
theorem buffer_invariant (f : recursion_effect_info) (hr : Reachable f) :
    (∀ fr ∈ f.frames, fr.render ≠ none) ∧
      ((f.frames.length = 0 ∧ f.render = none) ∨
        (0 < f.interval_ns ∧ f.render ≠ none ∧
          f.frames.length = max 1 (f.delay_ns / f.interval_ns))) ∧
      (f.interval_ns = 0 → f.frames.length = 0 ∧ f.render = none) := by
  obtain ⟨h1, h2⟩ := settled_of_reachable hr
  refine ⟨h1, ?_, ?_⟩
  · rcases h2 with h | h
    · exact Or.inl ⟨by rw [h.1]; rfl, h.2⟩
    · exact Or.inr h
  · intro hz
    rcases h2 with h | h
    · exact ⟨by rw [h.1]; rfl, h.2⟩
    · exact absurd hz (Nat.pos_iff_ne_zero.mp h.1)

/-- Witness of the amended C2: the running sample filter is reachable and
has three slots at a positive interval. -/
theorem buffer_invariant_witness :
    Reachable running_1080p ∧ running_1080p.frames.length = 3 ∧
      ((running_1080p.frames.length = 0 ∧ running_1080p.render = none) ∨
        (0 < running_1080p.interval_ns ∧ running_1080p.render ≠ none ∧
          running_1080p.frames.length
            = max 1 (running_1080p.delay_ns / running_1080p.interval_ns))) :=
  ⟨reachable_run (Reachable.create settings_100ms) _, by decide,
    (buffer_invariant running_1080p
      (reachable_run (Reachable.create settings_100ms) _)).2.1⟩

/-- C3: when the render preconditions hold and `processed_frame` is false,
one render call moves the oldest slot to the back with the scratch target as
its render target, makes the old render target of that slot the scratch
target, and changes neither the buffer length nor the held render targets. -/
theorem video_render_swaps (f : recursion_effect_info) (h : host) (s0 : frame)
    (rest : List frame) (hv : f.target_valid = true) (ht : h.target.isSome = true)
    (hp : h.parent = true) (hf : f.frames = s0 :: rest) (hpf : f.processed_frame = false) :
    (recursion_effect_video_render f h).frames = rest ++ [{ s0 with render := f.render }] ∧
      (recursion_effect_video_render f h).render = s0.render ∧
      (recursion_effect_video_render f h).frames.length = f.frames.length ∧
      ((recursion_effect_video_render f h).render ::
          (recursion_effect_video_render f h).frames.map (fun fr => fr.render)).Perm
        (f.render :: f.frames.map (fun fr => fr.render)) ∧
      (held (recursion_effect_video_render f h)).Perm (held f) ∧
      (recursion_effect_video_render f h).gs.live = f.gs.live ∧
      (recursion_effect_video_render f h).gs.created = f.gs.created ∧
      (recursion_effect_video_render f h).gs.destroyed = f.gs.destroyed ∧
      (recursion_effect_video_render f h).processed_frame = true := by
  rw [video_render_compose_eq f h s0 rest hv ht hp hf hpf]
  refine ⟨rfl, rfl, by simp [hf], ?_, ?_, rfl, rfl, rfl, rfl⟩
  · simp only [hf, List.map_append, List.map_cons, List.map_nil]
    simpa using @List.perm_middle _ f.render
      (s0.render :: List.map (fun fr => fr.render) rest) []
  · simp only [held, hf, held_append_frame, List.filterMap_cons]
    cases hs : s0.render <;> cases hr : f.render <;> simp
    rename_i a b
    have e : List.filterMap (fun fr => fr.render) rest ++ [b, a] =
        (List.filterMap (fun fr => fr.render) rest ++ [b]) ++ [a] := by simp
    rw [e]
    exact List.perm_append_singleton _ _

/-- Witness of C3: one render call on the running sample filter. -/
theorem video_render_swaps_witness :
    (recursion_effect_video_render running_1080p host_1080p).frames =
        [new_frame 2, new_frame 3, new_frame 0] ∧
      (recursion_effect_video_render running_1080p host_1080p).render = some 1 :=
  let h := video_render_swaps running_1080p host_1080p (new_frame 1)
    [new_frame 2, new_frame 3] (by decide) (by decide) (by decide) (by decide) (by decide)
  ⟨h.1, h.2.1⟩

/-- C4, counterexample: the running sample filter satisfies the render
preconditions (valid target, three slots, target and parent exist), yet a
tick during which the target reports a base width of zero clears
`target_valid`, so each of the three render calls that follow is a
pass-through: no composite is performed and `processed_frame` stays false. -/
theorem zero_width_tick_blocks_composite :
    running_1080p.target_valid = true ∧ running_1080p.frames.length = 3 ∧
      host_zero_width.target.isSome = true ∧ host_zero_width.parent = true ∧
      (recursion_effect_tick running_1080p host_zero_width).target_valid = false ∧
      (recursion_effect_video_render
        (recursion_effect_tick running_1080p host_zero_width)
          host_zero_width).processed_frame = false ∧
      ([host_zero_width, host_zero_width].foldl recursion_effect_video_render
        (recursion_effect_video_render
          (recursion_effect_tick running_1080p host_zero_width)
            host_zero_width)).gs.passes = [pass.skip, pass.skip, pass.skip] ∧
      ¬ (composites ([host_zero_width, host_zero_width].foldl recursion_effect_video_render
          (recursion_effect_video_render
            (recursion_effect_tick running_1080p host_zero_width)
              host_zero_width)).gs.passes =
        composites (recursion_effect_tick running_1080p host_zero_width).gs.passes + 1) := by
  refine ⟨by decide, by decide, by decide, by decide, by decide, by decide, by decide,
    by decide⟩

/-- C4, amended: when the render preconditions hold on the state a tick
leaves (valid target, non-empty buffer) and target and parent exist at each
of the `k >= 1` render calls that follow, the first call composites once
(pop, compose, swap, push) and sets `processed_frame`; every later call only
redraws the newest slot, so after any number `j` of further calls the state
differs from the one after the first call by the `j` logged redraws only, and
the log holds exactly one composite more than before. -/
theorem one_composite_per_tick (f : recursion_effect_info) (h r : host) (rs : List host)
    (hr : ∀ x ∈ r :: rs, x.target.isSome = true ∧ x.parent = true)
    (hv : (recursion_effect_tick f h).target_valid = true)
    (hne : (recursion_effect_tick f h).frames ≠ []) :
    (recursion_effect_tick f h).processed_frame = false ∧
    (∃ s0 rest, (recursion_effect_tick f h).frames = s0 :: rest ∧
      (recursion_effect_video_render (recursion_effect_tick f h) r).frames =
        rest ++ [{ s0 with render := (recursion_effect_tick f h).render }] ∧
      (recursion_effect_video_render (recursion_effect_tick f h) r).render = s0.render ∧
      (recursion_effect_video_render (recursion_effect_tick f h) r).gs.passes =
        (recursion_effect_tick f h).gs.passes ++
          [compose_pass (recursion_effect_tick f h) s0] ++
          draw_passes (recursion_effect_video_render (recursion_effect_tick f h) r)) ∧
    (recursion_effect_video_render (recursion_effect_tick f h) r).processed_frame = true ∧
    composites (recursion_effect_video_render (recursion_effect_tick f h) r).gs.passes =
      composites (recursion_effect_tick f h).gs.passes + 1 ∧
    (∀ j, j ≤ rs.length →
      (rs.take j).foldl recursion_effect_video_render
          (recursion_effect_video_render (recursion_effect_tick f h) r) =
        { recursion_effect_video_render (recursion_effect_tick f h) r with
          gs := { (recursion_effect_video_render (recursion_effect_tick f h) r).gs with
            passes := (recursion_effect_video_render (recursion_effect_tick f h) r).gs.passes ++
              (List.replicate j (draw_passes
                (recursion_effect_video_render (recursion_effect_tick f h) r))).flatten } } ∧
      composites ((rs.take j).foldl recursion_effect_video_render
          (recursion_effect_video_render (recursion_effect_tick f h) r)).gs.passes =
        composites (recursion_effect_tick f h).gs.passes + 1) := by
  have hpf := tick_processed_frame f h
  generalize recursion_effect_tick f h = t at hv hne hpf ⊢
  obtain ⟨s0, rest, hf⟩ : ∃ s0 rest, t.frames = s0 :: rest := by
    cases hfr : t.frames with
    | nil => exact absurd hfr hne
    | cons a l => exact ⟨a, l, rfl⟩
  have hr0 := hr r (List.mem_cons_self _ _)
  have e := video_render_compose_eq t r s0 rest hv hr0.1 hr0.2 hf hpf
  have hdp : draw_passes (recursion_effect_video_render t r) =
      draw_passes (composed t s0 rest) := by
    apply draw_passes_congr
    · rw [e]; rfl
    · rw [e, composed_gs]
  have hc1 : composites (recursion_effect_video_render t r).gs.passes =
      composites t.gs.passes + 1 := by
    rw [e]
    show composites (t.gs.passes ++ [compose_pass t s0] ++ draw_passes (composed t s0 rest))
      = _
    rw [composites_append, composites_append, composites_draw_passes]
    rfl
  refine ⟨hpf, ⟨s0, rest, hf, by rw [e], by rw [e], ?_⟩, by rw [e], hc1, ?_⟩
  · rw [hdp, e]
  · intro j hj
    have hrs : ∀ x ∈ rs.take j, x.target.isSome = true ∧ x.parent = true :=
      fun x hx => hr x (List.mem_cons_of_mem _ (List.mem_of_mem_take hx))
    have key := video_render_redraws (recursion_effect_video_render t r) (rs.take j)
      (draw_passes (recursion_effect_video_render t r)) hrs (by rw [e]; exact hv)
      (by rw [e]; simp) (by rw [e]) rfl
    have hlen : (rs.take j).length = j := by
      rw [List.length_take]; omega
    rw [hlen] at key
    refine ⟨key, ?_⟩
    rw [key]
    show composites ((recursion_effect_video_render t r).gs.passes ++ _) = _
    rw [composites_append, composites_redraws, hc1]

/-- Witness of the amended C4: a tick of the running sample filter followed
by three render calls composites once, into the scratch target 0 with no
texture yet in the popped slot 1, and draws the newest slot three times. -/
theorem one_composite_per_tick_witness :
    (recursion_effect_tick running_1080p host_1080p).target_valid = true ∧
      (recursion_effect_tick running_1080p host_1080p).frames.length = 3 ∧
      ([host_1080p, host_1080p].foldl recursion_effect_video_render
        (recursion_effect_video_render (recursion_effect_tick running_1080p host_1080p)
          host_1080p)).gs.passes =
        [pass.compose (some 0) true none false, pass.draw 0, pass.draw 0, pass.draw 0] ∧
      composites ([host_1080p, host_1080p].foldl recursion_effect_video_render
        (recursion_effect_video_render (recursion_effect_tick running_1080p host_1080p)
          host_1080p)).gs.passes = 1 := by
  have h := one_composite_per_tick running_1080p host_1080p host_1080p
    [host_1080p, host_1080p] (by decide) (by decide) (by decide)
  exact ⟨by decide, by decide, by decide, (h.2.2.2.2 2 (by decide)).2⟩

/-- C5: with a valid target and a positive interval, `update_interval` grows
the buffer by appending newly created slots behind the old ones, shrinks it
by destroying the oldest slots at the front, and leaves it alone when the
required count already matches. -/
theorem update_interval_resizes (f : recursion_effect_info) (new_interval_ns : Nat)
    (hv : f.target_valid = true) (hn : 0 < new_interval_ns) :
    (f.frames.length < max 1 (f.delay_ns / new_interval_ns) →
      (update_interval f new_interval_ns).frames =
          f.frames ++ (List.range' (scratch_gs f).next
            (max 1 (f.delay_ns / new_interval_ns) - f.frames.length)).map new_frame ∧
        (update_interval f new_interval_ns).gs.created =
          (scratch_gs f).created ++ List.range' (scratch_gs f).next
            (max 1 (f.delay_ns / new_interval_ns) - f.frames.length) ∧
        (update_interval f new_interval_ns).gs.destroyed = f.gs.destroyed) ∧
    (max 1 (f.delay_ns / new_interval_ns) < f.frames.length →
      (update_interval f new_interval_ns).frames =
          f.frames.drop (f.frames.length - max 1 (f.delay_ns / new_interval_ns)) ∧
        (update_interval f new_interval_ns).gs.destroyed =
          f.gs.destroyed ++
            (f.frames.take (f.frames.length - max 1 (f.delay_ns / new_interval_ns))).filterMap
              (fun fr => fr.render) ∧
        (update_interval f new_interval_ns).gs.created = (scratch_gs f).created) ∧
    (max 1 (f.delay_ns / new_interval_ns) = f.frames.length →
      (update_interval f new_interval_ns).frames = f.frames ∧
        (update_interval f new_interval_ns).gs.destroyed = f.gs.destroyed ∧
        (update_interval f new_interval_ns).gs.created = (scratch_gs f).created) := by
  rw [update_interval_valid f _ hv (Nat.pos_iff_ne_zero.mp hn)]
  simp only [required_count, scratch_gs_destroyed]
  refine ⟨fun h => ?_, fun h => ?_, fun h => ?_⟩
  · have e : f.frames.length - max 1 (f.delay_ns / new_interval_ns) = 0 := by omega
    simp [e]
  · have e : max 1 (f.delay_ns / new_interval_ns) - f.frames.length = 0 := by omega
    simp [e]
  · simp [h]

/-- Witness of C5: the running sample filter (three slots, delay 100 ms)
shrinks to its last two slots at an interval of 50 ms, grows by two new slots
at 20 ms and keeps its buffer at 33333333 ns. -/
theorem update_interval_resizes_witness :
    running_1080p.target_valid = true ∧ running_1080p.frames.length = 3 ∧
      (update_interval running_1080p 50000000).frames = running_1080p.frames.drop 1 ∧
      (update_interval running_1080p 50000000).gs.destroyed = [1] ∧
      (update_interval running_1080p 20000000).frames =
        running_1080p.frames ++ [new_frame 4, new_frame 5] ∧
      (update_interval running_1080p 33333333).frames = running_1080p.frames := by
  have h1 := update_interval_resizes running_1080p 50000000 (by decide) (by decide)
  have h2 := update_interval_resizes running_1080p 20000000 (by decide) (by decide)
  have h3 := update_interval_resizes running_1080p 33333333 (by decide) (by decide)
  refine ⟨by decide, by decide, ?_, ?_, ?_, ?_⟩
  · exact (h1.2.1 (by decide)).1
  · exact (h1.2.1 (by decide)).2.1
  · exact (h2.1 (by decide)).1
  · exact (h3.2.2 (by decide)).1

/-- C6: `update_interval` with a zero interval or an invalid target,
`free_textures` and `recursion_effect_destroy` all leave zero slots and a
null scratch target and destroy exactly the render targets held before the
call, creating none; and when the filter owns its render targets (as every
reachable state does), each held render target is destroyed exactly once and
no render target is left live. -/
theorem free_textures_releases_all (f : recursion_effect_info) :
    (∀ n, (f.target_valid = false ∨ n = 0) →
      (update_interval f n).frames = [] ∧ (update_interval f n).render = none ∧
        (update_interval f n).gs.destroyed = f.gs.destroyed ++ held f ∧
        (update_interval f n).gs.created = f.gs.created ∧
        (owned f → (update_interval f n).gs.live = [])) ∧
    ((free_textures f).frames = [] ∧ (free_textures f).render = none ∧
        (free_textures f).gs.destroyed = f.gs.destroyed ++ held f ∧
        (free_textures f).gs.created = f.gs.created ∧
        (owned f → (free_textures f).gs.live = [])) ∧
    ((recursion_effect_destroy f).frames = [] ∧ (recursion_effect_destroy f).render = none ∧
        (recursion_effect_destroy f).gs.destroyed = f.gs.destroyed ++ held f ∧
        (recursion_effect_destroy f).gs.created = f.gs.created ∧
        (owned f → (recursion_effect_destroy f).gs.live = [])) ∧
    (owned f → ∀ h ∈ held f, (held f).count h = 1) := by
  have key : (free_textures f).frames = [] ∧ (free_textures f).render = none ∧
      (free_textures f).gs.destroyed = f.gs.destroyed ++ held f ∧
      (free_textures f).gs.created = f.gs.created ∧
      (owned f → (free_textures f).gs.live = []) := by
    rw [free_textures_eq]
    exact ⟨rfl, rfl, rfl, rfl, fun ho => diff_eq_nil_of_perm ho.2.2⟩
  refine ⟨fun n hn => ?_, key, key, fun ho h hh => List.count_eq_one_of_mem ho.1 hh⟩
  rw [update_interval_invalid f n hn]
  exact key

/-- Witness of C6: the running sample filter owns its four render targets
and each of the three operations releases all of them. -/
theorem free_textures_releases_all_witness :
    owned running_1080p ∧ held running_1080p = [1, 2, 3, 0] ∧
      (free_textures running_1080p).gs.destroyed = [1, 2, 3, 0] ∧
      (free_textures running_1080p).gs.live = [] ∧
      (update_interval running_1080p 0).gs.live = [] ∧
      (recursion_effect_destroy running_1080p).gs.live = [] := by
  have ho : owned running_1080p := running_1080p_owned
  have h := free_textures_releases_all running_1080p
  exact ⟨ho, by decide, h.2.1.2.2.1, h.2.1.2.2.2.2 ho, (h.1 0 (Or.inr rfl)).2.2.2.2 ho,
    h.2.2.1.2.2.2.2 ho⟩

/-- C7, the code at the failing input: the filter ran at 1080p, lost its
target for a tick, had its delay changed meanwhile, and got its target back
with the same resolution and frame rate; after that tick the target is valid
and `interval_ns` is non-zero, yet the buffer has no slot and the scratch
target is null, where the claim promises one slot and a scratch target. -/
theorem resume_after_update_fails :
    Reachable stalled_1080p ∧ stalled_1080p.target_valid = true ∧
      stalled_1080p.cx = 1920 ∧ stalled_1080p.cy = 1080 ∧
      stalled_1080p.interval_ns = 33333333 ∧ stalled_1080p.delay_ns = 50000000 ∧
      max 1 (stalled_1080p.delay_ns / stalled_1080p.interval_ns) = 1 ∧
      stalled_1080p.frames = [] ∧ stalled_1080p.render = none ∧
      recursion_effect_tick stalled_1080p host_1080p = stalled_1080p := by
  refine ⟨reachable_run (Reachable.create settings_100ms) _, by decide, by decide,
    by decide, by decide, by decide, by decide, by decide, by decide, by decide⟩

/-- C8: a settings update whose delay (clamped to at least 1 ms, times
1000000, in `uint64_t`) differs from the stored `delay_ns`, made while the
stored interval is non-zero and the target valid, resizes the buffer inside
the update call to `max 1 (delay_ns / interval_ns)` slots with the stored
interval, which it leaves unchanged; slots are dropped from the front and
added at the back. -/
theorem update_resizes_immediately (f : recursion_effect_info) (s : settings)
    (hi : f.interval_ns ≠ 0) (hv : f.target_valid = true)
    (hd : ((max s.delay_ms 1).toNat * 1000000) % 2 ^ 64 ≠ f.delay_ns) :
    (recursion_effect_update f s).delay_ns
        = ((max s.delay_ms 1).toNat * 1000000) % 2 ^ 64 ∧
      (max s.delay_ms 1 * 1000000 < 2 ^ 64 →
        ((recursion_effect_update f s).delay_ns : Int) = max s.delay_ms 1 * 1000000) ∧
      (recursion_effect_update f s).interval_ns = f.interval_ns ∧
      (recursion_effect_update f s).frames.length
        = max 1 ((recursion_effect_update f s).delay_ns / f.interval_ns) ∧
      (recursion_effect_update f s).render ≠ none ∧
      (recursion_effect_update f s).frames =
        f.frames.drop (f.frames.length -
            max 1 ((recursion_effect_update f s).delay_ns / f.interval_ns)) ++
          (List.range' (scratch_gs f).next
            (max 1 ((recursion_effect_update f s).delay_ns / f.interval_ns)
              - f.frames.length)).map new_frame ∧
      (recursion_effect_update f s).gs.destroyed =
        f.gs.destroyed ++
          (f.frames.take (f.frames.length -
            max 1 ((recursion_effect_update f s).delay_ns / f.interval_ns))).filterMap
              (fun fr => fr.render) := by
  rw [update_delay_changed f s hi hd, update_interval_valid _ _ (by simpa using hv) hi]
  refine ⟨rfl, ?_, rfl, ?_, by simp, ?_, ?_⟩
  · intro hlt
    have h1 : (1 : Int) ≤ max s.delay_ms 1 := le_max_right _ _
    have h2 : ((max s.delay_ms 1).toNat : Int) = max s.delay_ms 1 :=
      Int.toNat_of_nonneg (by omega)
    have h3 : (max s.delay_ms 1).toNat * 1000000 < 2 ^ 64 := by
      have : (((max s.delay_ms 1).toNat * 1000000 : Nat) : Int) < 2 ^ 64 := by
        push_cast; rw [h2]; exact hlt
      exact_mod_cast this
    simp only [Nat.mod_eq_of_lt h3]
    push_cast
    rw [h2]
  · have hp := required_count_pos
      (((max s.delay_ms 1).toNat * 1000000) % 2 ^ 64) f.interval_ns
    simp only [List.length_append, List.length_drop, List.length_map, List.length_range']
    show _ = required_count _ _
    omega
  · rfl
  · simp only [scratch_gs_destroyed]; rfl

/-- Witness of C8: at an interval of 33333333 ns, changing the delay from
100 ms to 50 ms shrinks the buffer from three slots to one inside the update
call and destroys the two oldest render targets. -/
theorem update_resizes_immediately_witness :
    running_1080p.interval_ns = 33333333 ∧ running_1080p.delay_ns = 100000000 ∧
      running_1080p.frames = [new_frame 1, new_frame 2, new_frame 3] ∧
      (recursion_effect_update running_1080p settings_50ms).delay_ns = 50000000 ∧
      (recursion_effect_update running_1080p settings_50ms).interval_ns = 33333333 ∧
      (recursion_effect_update running_1080p settings_50ms).frames.length = 1 ∧
      (recursion_effect_update running_1080p settings_50ms).frames = [new_frame 3] ∧
      (recursion_effect_update running_1080p settings_50ms).gs.destroyed = [1, 2] := by
  have h := update_resizes_immediately running_1080p settings_50ms (by decide) (by decide)
    (by decide)
  exact ⟨by decide, by decide, by decide, h.1, h.2.2.1, h.2.2.2.1, h.2.2.2.2.2.1,
    h.2.2.2.2.2.2⟩

/-- C9: a tick that runs the size check on a valid target whose base
resolution differs from the stored one, with a non-zero host interval, stores
the new resolution, destroys every render target held before, and leaves
`max 1 (delay_ns / interval_ns)` slots plus a scratch target, all created in
that tick; when the filter owns its render targets (as every reachable state
does), no render target held before the tick is held after it and the live
render targets are exactly the new ones. -/
theorem tick_resolution_change (f : recursion_effect_info) (h : host) (cx cy : Nat)
    (hd : ¬ (f.reset_trigger = RESET_TRIGGER_ENABLE ∧ h.enabled = false))
    (ht : h.target = some (cx, cy)) (hcx : cx ≠ 0) (hcy : cy ≠ 0)
    (hch : cx ≠ f.cx ∨ cy ≠ f.cy)
    (hi : util_mul_div64 h.fps_den 1000000000 h.fps_num ≠ 0) :
    (recursion_effect_tick f h).cx = cx ∧ (recursion_effect_tick f h).cy = cy ∧
      (recursion_effect_tick f h).target_valid = true ∧
      (recursion_effect_tick f h).interval_ns
        = util_mul_div64 h.fps_den 1000000000 h.fps_num ∧
      (recursion_effect_tick f h).gs.destroyed = f.gs.destroyed ++ held f ∧
      (recursion_effect_tick f h).frames.length
        = max 1 (f.delay_ns / util_mul_div64 h.fps_den 1000000000 h.fps_num) ∧
      (recursion_effect_tick f h).frames =
        (List.range' (f.gs.next + 1)
          (max 1 (f.delay_ns / util_mul_div64 h.fps_den 1000000000 h.fps_num))).map
            new_frame ∧
      (recursion_effect_tick f h).render = some f.gs.next ∧
      (recursion_effect_tick f h).gs.created =
        f.gs.created ++ List.range' f.gs.next
          (max 1 (f.delay_ns / util_mul_div64 h.fps_den 1000000000 h.fps_num) + 1) ∧
      (owned f → (∀ x ∈ held f, x ∉ held (recursion_effect_tick f h)) ∧
        (recursion_effect_tick f h).gs.live.Perm (held (recursion_effect_tick f h))) := by
  rw [tick_rebuild_of_change f h cx cy hd ht hcx hcy hch hi]
  refine ⟨rfl, rfl, rfl, rfl, rfl, by simp [rebuilt, required_count], rfl, rfl, rfl,
    fun ho => ⟨?_, ?_⟩⟩
  · intro x hx
    have hlt : x < f.gs.next := ho.2.1 x hx
    rw [held_rebuilt]
    simp only [List.mem_append, List.mem_range'_1, List.mem_singleton, not_or]
    constructor
    · intro hh; omega
    · omega
  · rw [held_rebuilt]
    have e : f.gs.live.diff (held f) = [] := diff_eq_nil_of_perm ho.2.2
    simp only [rebuilt]
    rw [show ∀ g : recursion_effect_info, g.frames = f.frames → g.render = f.render →
      held g = held f from fun g h1 h2 => by simp [held, h1, h2]] <;> try rfl
    simp only [e, List.nil_append, List.range'_succ]
    exact (List.perm_append_singleton _ _).symm

/-- Witness of C9: the running sample filter (1920 by 1080, render targets 0
to 3) ticked with a target of 1280 by 720 destroys its four render targets
and holds the four new ones 4 to 7. -/
theorem tick_resolution_change_witness :
    running_1080p.cx = 1920 ∧ running_1080p.cy = 1080 ∧
      (recursion_effect_tick running_1080p host_720p).cx = 1280 ∧
      (recursion_effect_tick running_1080p host_720p).cy = 720 ∧
      (recursion_effect_tick running_1080p host_720p).gs.destroyed = [1, 2, 3, 0] ∧
      (recursion_effect_tick running_1080p host_720p).frames =
        [new_frame 5, new_frame 6, new_frame 7] ∧
      (recursion_effect_tick running_1080p host_720p).render = some 4 ∧
      (∀ x ∈ held running_1080p,
        x ∉ held (recursion_effect_tick running_1080p host_720p)) := by
  have h := tick_resolution_change running_1080p host_720p 1280 720 (by decide) rfl
    (by decide) (by decide) (by decide) (by decide)
  exact ⟨rfl, rfl, h.1, h.2.1, h.2.2.2.2.1, h.2.2.2.2.2.2.1, h.2.2.2.2.2.2.2.1,
    (h.2.2.2.2.2.2.2.2.2 running_1080p_owned).1⟩

/-- C10: with the Enable trigger, a tick while the filter is disabled leaves
zero slots, a null scratch target and `interval_ns = 0`, runs no size check
(resolution and `target_valid` keep their values) and creates nothing; and
the next tick with the filter enabled, a valid target and a non-zero host
interval builds `max 1 (delay_ns / interval_ns)` newly created slots and a
scratch target. -/
theorem tick_enable_drain (f : recursion_effect_info) (h : host)
    (hr : f.reset_trigger = RESET_TRIGGER_ENABLE) (hd : h.enabled = false) :
    ((recursion_effect_tick f h).frames = [] ∧ (recursion_effect_tick f h).render = none ∧
      (recursion_effect_tick f h).interval_ns = 0 ∧
      (recursion_effect_tick f h).cx = f.cx ∧ (recursion_effect_tick f h).cy = f.cy ∧
      (recursion_effect_tick f h).target_valid = f.target_valid ∧
      (recursion_effect_tick f h).delay_ns = f.delay_ns ∧
      (recursion_effect_tick f h).gs.created = f.gs.created ∧
      (recursion_effect_tick f h).gs.next = f.gs.next ∧
      (recursion_effect_tick f h).gs.destroyed = f.gs.destroyed ++ held f) ∧
    ∀ (h2 : host) (cx cy : Nat), h2.enabled = true → h2.target = some (cx, cy) →
      cx ≠ 0 → cy ≠ 0 → util_mul_div64 h2.fps_den 1000000000 h2.fps_num ≠ 0 →
      (recursion_effect_tick (recursion_effect_tick f h) h2).frames =
          (List.range' (f.gs.next + 1)
            (max 1 (f.delay_ns / util_mul_div64 h2.fps_den 1000000000 h2.fps_num))).map
              new_frame ∧
        (recursion_effect_tick (recursion_effect_tick f h) h2).frames.length =
          max 1 (f.delay_ns / util_mul_div64 h2.fps_den 1000000000 h2.fps_num) ∧
        (recursion_effect_tick (recursion_effect_tick f h) h2).render = some f.gs.next ∧
        (recursion_effect_tick (recursion_effect_tick f h) h2).interval_ns =
          util_mul_div64 h2.fps_den 1000000000 h2.fps_num ∧
        (recursion_effect_tick (recursion_effect_tick f h) h2).gs.created =
          f.gs.created ++ List.range' f.gs.next
            (max 1 (f.delay_ns / util_mul_div64 h2.fps_den 1000000000 h2.fps_num) + 1) := by
  have e := tick_drain f h hr hd
  rw [free_textures_eq] at e
  refine ⟨by rw [e]; exact ⟨rfl, rfl, rfl, rfl, rfl, rfl, rfl, rfl, rfl, rfl⟩, ?_⟩
  intro h2 cx cy he ht hcx hcy hi
  rw [tick_rebuilds_empty _ h2 cx cy he ht hcx hcy hi (by rw [e]) (by rw [e]) (by rw [e]), e]
  exact ⟨rfl, by simp [rebuilt, required_count], rfl, rfl, rfl⟩

/-- Witness of C10: a running filter with the Enable trigger is drained by a
tick while disabled and rebuilt with new render targets by the next tick
once enabled. -/
theorem tick_enable_drain_witness :
    running_enable.frames.length = 3 ∧
      (recursion_effect_tick running_enable host_disabled).frames = [] ∧
      (recursion_effect_tick running_enable host_disabled).render = none ∧
      (recursion_effect_tick running_enable host_disabled).interval_ns = 0 ∧
      (recursion_effect_tick (recursion_effect_tick running_enable host_disabled)
        host_1080p).frames = [new_frame 5, new_frame 6, new_frame 7] ∧
      (recursion_effect_tick (recursion_effect_tick running_enable host_disabled)
        host_1080p).render = some 4 := by
  have h := tick_enable_drain running_enable host_disabled (by decide) (by decide)
  have h2 := h.2 host_1080p 1920 1080 (by decide) rfl (by decide) (by decide) (by decide)
  exact ⟨by decide, h.1.1, h.1.2.1, h.1.2.2.1, h2.1, h2.2.2.1⟩

end RecursionEffect
